import Mathlib

/-!
# Verification of `cremalink/domain/device.py`

A shallow embedding of the device-model layer of the cremalink repository
(`src/cremalink/domain/device.py`) together with proofs about the claims of
its specification.

Modelling conventions:

* Python `str` values are Lean `String`s; where character-level reasoning is
  required we work on `String.data : List Char`.  The character-class
  functions (`str.lower`, `str.strip`, `bytes.fromhex` whitespace skipping)
  are modelled on the ASCII range, which covers every input appearing in the
  specification's examples.
* Python `bytes`/`bytearray` values are `List Nat` (each entry `< 256`).
* JSON documents (the device-map file after `json.load`) are values of the
  inductive type `JValue`; Python `dict`s of JSON data are association lists.
* Raising an exception is modelled by returning `Except PyError _` (or
  `Option _` where only one failure mode exists); `time.time()` is an
  explicit `now : Nat` argument (whole seconds since the epoch).
-/

/-- JSON-like dynamic values: the result of `json.load` on the device map,
and the runtime type of the values stored in `Device.command_map` /
`Device.property_map` (Python annotates them `Dict[str, Any]` but performs no
runtime checking, so a non-dict section value is stored verbatim). -/
inductive JValue where
  | null
  | bool (b : Bool)
  | num (n : Int)
  | str (s : String)
  | arr (elems : List JValue)
  | dict (entries : List (String × JValue))

/-- `isinstance(v, dict)`. -/
def JValue.isDict : JValue → Bool
  | .dict _ => true
  | _ => false

/-- Python truthiness on JSON data (`if not hex_command`): `None`, `False`,
`0`, `""`, `[]` and `{}` are falsy. -/
def JValue.falsy : JValue → Bool
  | .null => true
  | .bool b => !b
  | .num n => n == 0
  | .str s => s == ""
  | .arr l => l.isEmpty
  | .dict es => es.isEmpty

/-- `d.get(key)` for a JSON dict; `none` when the key is absent.  Only used
where the receiver is statically known to be a dict. -/
def JValue.get : JValue → String → Option JValue
  | .dict es, k => es.lookup k
  | _, _ => none

/-- Python exceptions raised by the code paths modelled here. -/
inductive PyError where
  | unknownCommand (key : String)
  | invalidHex
  | typeError
  | attributeError
deriving DecidableEq

/-! ## Character-level models of the Python `str` methods used by the code -/

/-- Python `str.isspace` / CPython `Py_ISSPACE` on the ASCII range:
space and `\t\n\v\f\r` (code points 32 and 9–13).  This is the class of
characters skipped by `bytes.fromhex` and stripped by `str.strip`. -/
def pyIsSpace (c : Char) : Bool := c.toNat = 32 || (9 ≤ c.toNat && c.toNat ≤ 13)

/-- Python `str.lower` (ASCII range), character by character.  Lean's
`Char.toLower` implements exactly the basic-latin lowering `A`–`Z` ↦ `a`–`z`
that Python performs on ASCII input. -/
def pyLower (l : List Char) : List Char := l.map Char.toLower

/-- Python `str.strip()` (ASCII whitespace): drop leading and trailing
whitespace characters. -/
def pyStrip (l : List Char) : List Char :=
  (((l.dropWhile pyIsSpace).reverse.dropWhile pyIsSpace)).reverse

/-- `drink_name.lower().strip()` — the alias normalization performed by
`Device.do`. -/
def pyNormKey (s : String) : String := ⟨pyStrip (pyLower s.data)⟩

/-! ## `bytes.fromhex` and `hex()` -/

/-- Value of one hexadecimal digit character (`0`–`9`, `a`–`f`, `A`–`F`). -/
def hexDigitVal (c : Char) : Option Nat :=
  if 48 ≤ c.toNat ∧ c.toNat ≤ 57 then some (c.toNat - 48)
  else if 97 ≤ c.toNat ∧ c.toNat ≤ 102 then some (c.toNat - 87)
  else if 65 ≤ c.toNat ∧ c.toNat ≤ 70 then some (c.toNat - 55)
  else none

/-- `bytearray.fromhex`: pairs of hex digits, with ASCII whitespace permitted
before, between and after the two-digit pairs (but not inside a pair), as in
CPython's `_PyBytes_FromHex`.  `none` models the `ValueError` raised on any
other input (odd trailing digit, non-hex character). -/
def pyFromHex : List Char → Option (List Nat)
  | [] => some []
  | c :: rest =>
    if pyIsSpace c then pyFromHex rest
    else
      match hexDigitVal c, rest with
      | some hi, c2 :: rest2 =>
        match hexDigitVal c2 with
        | some lo => (pyFromHex rest2).map (fun bs => (16 * hi + lo) :: bs)
        | none => none
      | _, _ => none

/-- The specification's notion of decoding a *valid hex string of even
length*: strictly pairs of hex digits, nothing else.  Used to compare the
code's `bytes.fromhex` against the spec's words. -/
def specHexDecode : List Char → Option (List Nat)
  | [] => some []
  | c1 :: c2 :: rest =>
    match hexDigitVal c1, hexDigitVal c2 with
    | some hi, some lo => (specHexDecode rest).map (fun bs => (16 * hi + lo) :: bs)
    | _, _ => none
  | [_] => none

/-- The specification's predicate "valid hexadecimal of even length". -/
def isValidEvenHex (l : List Char) : Bool :=
  l.all (fun c => (hexDigitVal c).isSome) && l.length % 2 = 0

/-- Hex digits of `n`, most significant first, empty for `0` (helper of
`pyHex`; the first argument is structural fuel, always instantiated with a
value `≥ n`). -/
def natHexDigits : Nat → Nat → List Nat
  | 0, _ => []
  | fuel + 1, n => if n = 0 then [] else natHexDigits fuel (n / 16) ++ [n % 16]

/-- Lowercase character of one hex digit, as produced by Python `hex()`. -/
def hexDigitChar (d : Nat) : Char :=
  if d < 10 then Char.ofNat (48 + d) else Char.ofNat (87 + d)

/-- Python `hex(n)[2:]` for `n ≥ 0`: the minimal lowercase hexadecimal
representation, with no `0x` prefix, no leading zeros and **no** padding to
an even number of digits (`hex(0)[2:] = "0"`). -/
def pyHex (n : Nat) : List Char :=
  if n = 0 then ['0'] else (natHexDigits n n).map hexDigitChar

/-- Numeric value of a list of hex-digit characters (big-endian). -/
def hexVal (l : List Char) : Nat :=
  l.foldl (fun a c => 16 * a + (hexDigitVal c).getD 0) 0

/-! ## `base64.b64encode` -/

/-- Character of one 6-bit group in the standard base64 alphabet. -/
def b64Char (i : Nat) : Char :=
  if i < 26 then Char.ofNat (65 + i)
  else if i < 52 then Char.ofNat (97 + (i - 26))
  else if i < 62 then Char.ofNat (48 + (i - 52))
  else if i = 62 then '+'
  else '/'

/-- `base64.b64encode` on a byte list (standard alphabet, `=` padding). -/
def b64encode : List Nat → List Char
  | b1 :: b2 :: b3 :: rest =>
    b64Char (b1 / 4) :: b64Char ((b1 % 4) * 16 + b2 / 16) ::
      b64Char ((b2 % 16) * 4 + b3 / 64) :: b64Char (b3 % 64) :: b64encode rest
  | [b1, b2] => [b64Char (b1 / 4), b64Char ((b1 % 4) * 16 + b2 / 16), b64Char ((b2 % 16) * 4), '=']
  | [b1] => [b64Char (b1 / 4), b64Char ((b1 % 4) * 16), '=', '=']
  | [] => []

/-! ## `_encode_command` -/

/-- `device.py` lines 25–28:

```python
def _encode_command(hex_command: str) -> str:
    head = bytearray.fromhex(hex_command)
    timestamp = bytearray.fromhex(hex(int(time.time()))[2:])
    return b64encode(head + timestamp).decode("utf-8")
```

`now` is the value of `int(time.time())`; `none` models the `ValueError`
raised by either `fromhex` call. -/
def _encode_command (hex_command : String) (now : Nat) : Option String :=
  match pyFromHex hex_command.data with
  | none => none
  | some head =>
    match pyFromHex (pyHex now) with
    | none => none
    | some timestamp => some ⟨b64encode (head ++ timestamp)⟩

/-! ## Monitor profile, snapshot, frame, view

`MonitorProfile`, `MonitorSnapshot`, `MonitorFrame` and `MonitorView` live in
`cremalink/parsing/monitor/`, which is not part of the sources; they are
modelled from the specification where `device.py` depends on them. -/

/-- One field descriptor of a monitor profile (spec §3, the members needed
here). -/
structure FieldDescriptor where
  name : String
  offset : Nat
  width : Nat
  kind : String
deriving DecidableEq

/-- Ordered collection of field descriptors (spec §3/§4.3). -/
structure MonitorProfile where
  fields : List FieldDescriptor := []
deriving DecidableEq

/-- Modelled from the spec: `MonitorProfile.from_dict` is defined in
`cremalink/parsing/monitor/profile.py`, which is missing from the sources.
Per §4.3 it is "tolerant of missing/empty input (produces an empty schema,
not an error)" and per §6 the section holds "a sequence of field descriptors";
we parse a JSON array best-effort, skipping malformed entries, and return the
empty schema on any other input. -/
def MonitorProfile.from_dict (j : JValue) : MonitorProfile :=
  match j with
  | .arr items =>
    ⟨items.filterMap fun item =>
      match item.get "name", item.get "offset", item.get "width", item.get "kind" with
      | some (.str n), some (.num o), some (.num w), some (.str k) =>
        if 0 ≤ o ∧ 0 < w then some ⟨n, o.toNat, w.toNat, k⟩ else none
      | _, _, _, _ => none⟩
  | _ => ⟨[]⟩

/-- The transport's answer to `get_monitor()` (spec §6:
`read_raw_telemetry() -> { raw_b64: Option<string> }`). -/
structure MonitorSnapshot where
  raw_b64 : Option String := none
deriving DecidableEq

/-- A decoded telemetry frame retaining the raw byte buffer (spec §3). -/
structure MonitorFrame where
  buffer : List Nat
deriving DecidableEq

/-- Value of one base64 alphabet character. -/
def b64CharVal (c : Char) : Option Nat :=
  if 65 ≤ c.toNat ∧ c.toNat ≤ 90 then some (c.toNat - 65)
  else if 97 ≤ c.toNat ∧ c.toNat ≤ 122 then some (c.toNat - 97 + 26)
  else if 48 ≤ c.toNat ∧ c.toNat ≤ 57 then some (c.toNat - 48 + 52)
  else if c = '+' then some 62
  else if c = '/' then some 63
  else none

/-- Base64 decoding in four-character groups, `=` padding allowed only at the
very end; `none` for malformed input. -/
def b64decode : List Char → Option (List Nat)
  | [] => some []
  | c1 :: c2 :: c3 :: c4 :: rest =>
    match b64CharVal c1, b64CharVal c2 with
    | some v1, some v2 =>
      if c3 = '=' ∧ c4 = '=' ∧ rest = [] then
        some [v1 * 4 + v2 / 16]
      else
        match b64CharVal c3 with
        | some v3 =>
          if c4 = '=' ∧ rest = [] then
            some [v1 * 4 + v2 / 16, (v2 % 16) * 16 + v3 / 4]
          else
            match b64CharVal c4 with
            | some v4 =>
              (b64decode rest).map fun bs =>
                (v1 * 4 + v2 / 16) :: ((v2 % 16) * 16 + v3 / 4) :: ((v3 % 4) * 64 + v4) :: bs
            | none => none
        | none => none
    | _, _ => none
  | _ => none

/-- Modelled from the spec: `MonitorFrame.from_b64` is defined in
`cremalink/parsing/monitor/frame.py`, which is missing from the sources.
Per §4.4 it base64-decodes the string into the frame's byte buffer and fails
(`MalformedEncoding`) when the string is not valid base64; `none` models that
failure. -/
def MonitorFrame.from_b64 (s : String) : Option MonitorFrame :=
  (b64decode s.data).map MonitorFrame.mk

/-- A monitor view as constructed by `Device.get_monitor`: the snapshot taken
at construction time together with the device's profile. -/
structure MonitorView where
  snapshot : MonitorSnapshot
  profile : MonitorProfile
deriving DecidableEq

/-! ## The `Device` dataclass and its transport boundary -/

/-- The optional `set_mappings` hook of a transport.  `none` models a
transport object without a `set_mappings` attribute (`hasattr` fails); an
`Except.error` result models the hook raising an exception. -/
structure Transport where
  set_mappings : Option (JValue → JValue → Except String Unit) := none

/-- Observable interactions with the transport performed by `from_map`. -/
inductive HookEvent where
  | setMappingsCalled
deriving DecidableEq

/-- The `Device` dataclass (`device.py` lines 31–48).  The `transport` member
is not stored here: transport interactions are modelled as explicit arguments
and results at each call site. -/
structure Device where
  dsn : Option String := none
  model : Option String := none
  nickname : Option String := none
  ip : Option String := none
  lan_key : Option String := none
  scheme : Option String := none
  is_online : Option Bool := none
  last_seen : Option String := none
  firmware : Option String := none
  serial : Option String := none
  coffee_count : Option Int := none
  command_map : JValue := .dict []
  property_map : JValue := .dict []
  monitor_profile : MonitorProfile := {}
  extra : List (String × JValue) := []

/-- `device.py` lines 17–22:

```python
def _load_device_map(device_map_path):
    if not device_map_path:
        return {}
    with open(device_map_path, "r") as f:
        data = json.load(f)
    return data if isinstance(data, dict) else {}
```

The embedding works at the parsed-document boundary: `none` models a falsy
`device_map_path`, `some d` models a path whose file parsed to the JSON value
`d` (`open`/`json.load` themselves belong to the file-system boundary). -/
def _load_device_map (doc : Option JValue) : JValue :=
  match doc with
  | none => .dict []
  | some data => if data.isDict then data else .dict []

/-- `Device.from_map` (`device.py` lines 50–75).  Returns the constructed
device together with the list of transport-hook interactions; the result of
`set_mappings` is computed and discarded, translating
`try: transport.set_mappings(...) except Exception: pass`. -/
def Device.from_map (transport : Transport) (doc : Option JValue) : Device × List HookEvent :=
  let map_data := _load_device_map doc
  let command_map := if map_data.isDict then (map_data.get "command_map").getD (.dict []) else .dict []
  let property_map := if map_data.isDict then (map_data.get "property_map").getD (.dict []) else .dict []
  let monitor_profile_data := if map_data.isDict then (map_data.get "monitor_profile").getD (.dict []) else .dict []
  let monitor_profile := MonitorProfile.from_dict monitor_profile_data
  let events :=
    match transport.set_mappings with
    | some set_mappings =>
      let _result := set_mappings command_map property_map
      [HookEvent.setMappingsCalled]
    | none => []
  ({ command_map := command_map, property_map := property_map,
     monitor_profile := monitor_profile }, events)

/-- `Device.send_command` (`device.py` lines 81–83).  A `.ok e` result means
the payload `e` was handed to `transport.send_command`; an error means the
`ValueError` from `_encode_command` propagated before the transport was
invoked. -/
def Device.send_command (_d : Device) (command : String) (now : Nat) : Except PyError String :=
  match _encode_command command now with
  | some encoded => .ok encoded
  | none => .error .invalidHex

/-- `Device.do` (`device.py` lines 102–107):

```python
def do(self, drink_name):
    key = drink_name.lower().strip()
    hex_command = self.command_map.get(key, {}).get("command")
    if not hex_command:
        raise ValueError(f"Command '{key}' not implemented; check device_map.")
    return self.send_command(hex_command)
```

`.error (.unknownCommand key)` is the explicit `ValueError` above;
`.attributeError`/`.typeError` model `.get` on a non-dict and
`fromhex` on a non-string, which arise only from malformed maps. -/
def Device.do (d : Device) (drink_name : String) (now : Nat) : Except PyError String :=
  let key := pyNormKey drink_name
  match d.command_map with
  | .dict entries =>
    match (entries.lookup key).getD (.dict []) with
    | .dict dentries =>
      let hex_command := (dentries.lookup "command").getD .null
      if hex_command.falsy then
        .error (.unknownCommand key)
      else
        match hex_command with
        | .str s => d.send_command s now
        | _ => .error .typeError
    | _ => .error .attributeError
  | _ => .error .attributeError

/-- Python `default or alias` (an empty-string default is falsy and falls
back to the alias, like `None`).  `aliasName` is the `alias` parameter of the
source (renamed because `alias` is reserved in Lean). -/
def pyOrStr (default : Option String) (aliasName : String) : String :=
  match default with
  | some d => if d = "" then aliasName else d
  | none => aliasName

/-- `Device.resolve_property` (`device.py` lines 113–114):
`return self.property_map.get(alias, default or alias)`. -/
def Device.resolve_property (d : Device) (aliasName : String) (default : Option String) :
    Except PyError JValue :=
  match d.property_map with
  | .dict entries => .ok ((entries.lookup aliasName).getD (.str (pyOrStr default aliasName)))
  | _ => .error .attributeError

/-- `Device.get_monitor` (`device.py` lines 120–122): takes the snapshot the
transport returns *at call time* and wraps it with the device's profile.
`snapshot` is the value `self.get_monitor_snapshot()` returned. -/
def Device.get_monitor (d : Device) (snapshot : MonitorSnapshot) : MonitorView :=
  { snapshot := snapshot, profile := d.monitor_profile }

/-- `Device.get_monitor` invoked at instant `t` against a transport whose
reading at instant `u` is `readings u`: the snapshot passed to the view is
the one current at construction time. -/
def Device.get_monitor_at (d : Device) (readings : Nat → MonitorSnapshot) (t : Nat) :
    MonitorView :=
  d.get_monitor (readings t)

/-- `Device.get_monitor_frame` (`device.py` lines 124–131): `None` when the
snapshot's raw telemetry is falsy (absent or the empty string), otherwise
`MonitorFrame.from_b64` with any exception converted to `None`. -/
def Device.get_monitor_frame (_d : Device) (snapshot : MonitorSnapshot) : Option MonitorFrame :=
  match snapshot.raw_b64 with
  | none => none
  | some s => if s = "" then none else MonitorFrame.from_b64 s

/-! ## Character and string normalization lemmas -/

theorem charToNat_ofNat {n : Nat} (h : n < 55296) : (Char.ofNat n).toNat = n := by
  unfold Char.ofNat
  rw [dif_pos (Or.inl h)]
  rfl

theorem toLower_toNat (c : Char) :
    (Char.toLower c).toNat =
      if c.toNat ≥ 65 ∧ c.toNat ≤ 90 then c.toNat + 32 else c.toNat := by
  show (if c.toNat ≥ 65 ∧ c.toNat ≤ 90 then Char.ofNat (c.toNat + 32) else c).toNat = _
  split
  · next h => rw [charToNat_ofNat (by omega)]
  · rfl

theorem toLower_of_not_upper {c : Char} (h : ¬ (c.toNat ≥ 65 ∧ c.toNat ≤ 90)) :
    Char.toLower c = c := by
  show (if c.toNat ≥ 65 ∧ c.toNat ≤ 90 then Char.ofNat (c.toNat + 32) else c) = c
  rw [if_neg h]

theorem toLower_toLower (c : Char) : Char.toLower (Char.toLower c) = Char.toLower c := by
  apply toLower_of_not_upper
  rw [toLower_toNat]
  split <;> omega

theorem pyIsSpace_toLower (c : Char) : pyIsSpace (Char.toLower c) = pyIsSpace c := by
  simp only [pyIsSpace, toLower_toNat]
  split
  · next h =>
    have e1 : (decide (c.toNat + 32 = 32)) = false := by
      simp only [decide_eq_false_iff_not]; omega
    have e2 : (decide (c.toNat + 32 ≤ 13)) = false := by
      simp only [decide_eq_false_iff_not]; omega
    have e3 : (decide (c.toNat = 32)) = false := by
      simp only [decide_eq_false_iff_not]; omega
    have e4 : (decide (c.toNat ≤ 13)) = false := by
      simp only [decide_eq_false_iff_not]; omega
    rw [e1, e2, e3, e4]
    simp
  · rfl

theorem pyLower_pyLower (l : List Char) : pyLower (pyLower l) = pyLower l := by
  unfold pyLower
  rw [List.map_map]
  have : Char.toLower ∘ Char.toLower = Char.toLower := funext toLower_toLower
  rw [this]

theorem pyLower_pyStrip (l : List Char) : pyLower (pyStrip l) = pyStrip (pyLower l) := by
  unfold pyLower pyStrip
  have hc : pyIsSpace ∘ Char.toLower = pyIsSpace := funext pyIsSpace_toLower
  rw [List.dropWhile_map, hc, ← List.map_reverse, List.dropWhile_map, hc, ← List.map_reverse]

theorem dropWhile_head_not {p : α → Bool} {l : List α} {a : α} {t : List α}
    (h : l.dropWhile p = a :: t) : p a = false := by
  have := List.head?_dropWhile_not p l
  rw [h] at this
  exact this

theorem dropWhile_eq_self_of_head {p : α → Bool} {l : List α}
    (h : ∀ a t, l = a :: t → p a = false) : l.dropWhile p = l := by
  cases l with
  | nil => rfl
  | cons a t => exact List.dropWhile_cons_of_neg (by simp [h a t rfl])

theorem dropWhile_dropWhile (p : α → Bool) (l : List α) :
    (l.dropWhile p).dropWhile p = l.dropWhile p := by
  apply dropWhile_eq_self_of_head
  intro a t h
  exact dropWhile_head_not h

theorem pyStrip_head_not {l : List Char} {a : Char} {t : List Char}
    (h : pyStrip l = a :: t) : pyIsSpace a = false := by
  unfold pyStrip at h
  have hsplit : l.dropWhile pyIsSpace =
      ((l.dropWhile pyIsSpace).reverse.dropWhile pyIsSpace).reverse ++
        ((l.dropWhile pyIsSpace).reverse.takeWhile pyIsSpace).reverse := by
    have h1 : (l.dropWhile pyIsSpace).reverse.takeWhile pyIsSpace ++
        (l.dropWhile pyIsSpace).reverse.dropWhile pyIsSpace =
          (l.dropWhile pyIsSpace).reverse :=
      List.takeWhile_append_dropWhile pyIsSpace _
    have h2 := congrArg List.reverse h1
    rw [List.reverse_append, List.reverse_reverse] at h2
    exact h2.symm
  rw [h, List.cons_append] at hsplit
  exact dropWhile_head_not hsplit

theorem pyStrip_rev_head_not {l : List Char} {a : Char} {t : List Char}
    (h : (pyStrip l).reverse = a :: t) : pyIsSpace a = false := by
  unfold pyStrip at h
  rw [List.reverse_reverse] at h
  exact dropWhile_head_not h

theorem pyStrip_pyStrip (l : List Char) : pyStrip (pyStrip l) = pyStrip l := by
  have h1 : (pyStrip l).dropWhile pyIsSpace = pyStrip l :=
    dropWhile_eq_self_of_head (fun _ _ h => pyStrip_head_not h)
  show (((pyStrip l).dropWhile pyIsSpace).reverse.dropWhile pyIsSpace).reverse = pyStrip l
  rw [h1]
  have h2 : (pyStrip l).reverse.dropWhile pyIsSpace = (pyStrip l).reverse :=
    dropWhile_eq_self_of_head (fun _ _ h => pyStrip_rev_head_not h)
  rw [h2, List.reverse_reverse]

theorem pyNormKey_lower_strip (s : String) :
    pyNormKey ⟨pyLower (pyStrip s.data)⟩ = pyNormKey s := by
  unfold pyNormKey
  show (⟨pyStrip (pyLower (pyLower (pyStrip s.data)))⟩ : String) = _
  rw [pyLower_pyLower, pyLower_pyStrip, pyStrip_pyStrip]

/-! ## Hex-rendering and hex-decoding lemmas -/

theorem natHexDigits_lt16 : ∀ (fuel n d : Nat), d ∈ natHexDigits fuel n → d < 16 := by
  intro fuel
  induction fuel with
  | zero => intro n d h; simp [natHexDigits] at h
  | succ fuel ih =>
    intro n d h
    unfold natHexDigits at h
    split at h
    · simp at h
    · rw [List.mem_append] at h
      rcases h with h | h
      · exact ih _ _ h
      · simp at h; omega

theorem natHexDigits_ne_nil {fuel n : Nat} (h1 : 0 < n) (h2 : n ≤ fuel) :
    natHexDigits fuel n ≠ [] := by
  cases fuel with
  | zero => omega
  | succ fuel =>
    unfold natHexDigits
    rw [if_neg (by omega)]
    simp

theorem natHexDigits_head_ne_zero : ∀ (fuel n : Nat), 0 < n → n ≤ fuel →
    ∀ a t, natHexDigits fuel n = a :: t → a ≠ 0 := by
  intro fuel
  induction fuel with
  | zero => intro n h1 h2; omega
  | succ fuel ih =>
    intro n h1 h2 a t h
    unfold natHexDigits at h
    rw [if_neg (by omega)] at h
    by_cases hq : n / 16 = 0
    · rw [hq] at h
      have : natHexDigits fuel 0 = [] := by cases fuel <;> simp [natHexDigits]
      rw [this, List.nil_append] at h
      have hn16 : n < 16 := by omega
      have := Nat.mod_eq_of_lt hn16
      simp at h
      omega
    · have hq1 : 0 < n / 16 := by omega
      have hq2 : n / 16 ≤ fuel := by
        have := Nat.div_lt_self h1 (by omega : 1 < 16)
        omega
      obtain ⟨b, t', hbt⟩ : ∃ b t', natHexDigits fuel (n / 16) = b :: t' := by
        cases hE : natHexDigits fuel (n / 16) with
        | nil => exact absurd hE (natHexDigits_ne_nil hq1 hq2)
        | cons b t' => exact ⟨b, t', rfl⟩
      rw [hbt, List.cons_append] at h
      obtain ⟨ha, -⟩ := List.cons.inj h
      exact ha ▸ ih _ hq1 hq2 b t' hbt

theorem hexVal_append_digit (l : List Char) (c : Char) :
    hexVal (l ++ [c]) = 16 * hexVal l + (hexDigitVal c).getD 0 := by
  unfold hexVal
  rw [List.foldl_append]
  rfl

theorem hexDigitVal_hexDigitChar {d : Nat} (h : d < 16) :
    hexDigitVal (hexDigitChar d) = some d := by
  unfold hexDigitChar hexDigitVal
  by_cases h10 : d < 10
  · rw [if_pos h10, charToNat_ofNat (by omega), if_pos (by omega)]
    congr 1
    omega
  · rw [if_neg h10, charToNat_ofNat (by omega), if_neg (by omega), if_pos (by omega)]
    congr 1
    omega

theorem pyIsSpace_hexDigitChar {d : Nat} (h : d < 16) :
    pyIsSpace (hexDigitChar d) = false := by
  unfold hexDigitChar pyIsSpace
  by_cases h10 : d < 10
  · rw [if_pos h10, charToNat_ofNat (by omega)]
    simp only [Bool.or_eq_false_iff, Bool.and_eq_false_iff, decide_eq_false_iff_not]
    omega
  · rw [if_neg h10, charToNat_ofNat (by omega)]
    simp only [Bool.or_eq_false_iff, Bool.and_eq_false_iff, decide_eq_false_iff_not]
    omega

theorem hexDigitChar_ne_zero_char {d : Nat} (h1 : d ≠ 0) (h2 : d < 16) :
    hexDigitChar d ≠ '0' := by
  intro hEq
  have h0 : ('0' : Char).toNat = 48 := by decide
  have := congrArg Char.toNat hEq
  rw [h0] at this
  unfold hexDigitChar at this
  by_cases h10 : d < 10
  · rw [if_pos h10, charToNat_ofNat (by omega)] at this; omega
  · rw [if_neg h10, charToNat_ofNat (by omega)] at this; omega

theorem hexVal_natHexDigits : ∀ (fuel n : Nat), n ≤ fuel →
    hexVal ((natHexDigits fuel n).map hexDigitChar) = n := by
  intro fuel
  induction fuel with
  | zero =>
    intro n h
    have : n = 0 := by omega
    subst this
    rfl
  | succ fuel ih =>
    intro n h
    unfold natHexDigits
    split
    · next h0 => subst h0; rfl
    · next h0 =>
      have h1 : 0 < n := by omega
      have hq : n / 16 ≤ fuel := by
        have := Nat.div_lt_self h1 (by omega : 1 < 16)
        omega
      rw [List.map_append, List.map_singleton, hexVal_append_digit, ih _ hq,
        hexDigitVal_hexDigitChar (Nat.mod_lt _ (by omega)), Option.getD_some]
      omega

theorem pyFromHex_eq_specHexDecode : ∀ (l : List Char),
    (∀ c ∈ l, pyIsSpace c = false) → pyFromHex l = specHexDecode l := by
  intro l
  induction l using specHexDecode.induct with
  | case1 =>
    intro _
    rfl
  | case2 c1 c2 rest hi lo hv2 hv1 ih =>
    intro h
    have hrec := ih (fun c hc => h c (by simp [hc]))
    unfold pyFromHex specHexDecode
    rw [h c1 (by simp)]
    simp only [Bool.false_eq_true, if_false, hv1, hv2]
    rw [hrec]
  | case3 c1 c2 rest hnot =>
    intro h
    unfold pyFromHex specHexDecode
    rw [h c1 (by simp)]
    simp only [Bool.false_eq_true, if_false]
    cases hv1 : hexDigitVal c1 with
    | none => simp
    | some hi =>
      cases hv2 : hexDigitVal c2 with
      | none => simp [hv2]
      | some lo => exact (hnot hi lo hv1 hv2).elim
  | case4 c =>
    intro h
    unfold pyFromHex specHexDecode
    rw [h c (by simp)]
    simp only [Bool.false_eq_true, if_false]
    cases hv1 : hexDigitVal c <;> rfl

theorem specHexDecode_isSome : ∀ (l : List Char),
    (specHexDecode l).isSome = isValidEvenHex l := by
  intro l
  induction l using specHexDecode.induct with
  | case1 => rfl
  | case2 c1 c2 rest hi lo hv2 hv1 ih =>
    unfold specHexDecode isValidEvenHex
    unfold isValidEvenHex at ih
    simp only [hv1, hv2, Option.isSome_map', ih, List.all_cons, Option.isSome_some,
      Bool.true_and, List.length_cons]
    congr 1
    simp only [decide_eq_decide]
    omega
  | case3 c1 c2 rest hnot =>
    unfold specHexDecode isValidEvenHex
    cases hv1 : hexDigitVal c1 with
    | none => simp [hv1]
    | some hi =>
      cases hv2 : hexDigitVal c2 with
      | none => simp [hv1, hv2]
      | some lo => exact (hnot hi lo hv1 hv2).elim
  | case4 c =>
    unfold specHexDecode isValidEvenHex
    simp

theorem pyHex_mem_hexDigitChar {n : Nat} {c : Char} (h : c ∈ pyHex n) :
    ∃ d, d < 16 ∧ c = hexDigitChar d := by
  unfold pyHex at h
  split at h
  · simp at h
    exact ⟨0, by omega, by rw [h]; rfl⟩
  · rw [List.mem_map] at h
    obtain ⟨d, hd, hc⟩ := h
    exact ⟨d, natHexDigits_lt16 _ _ _ hd, hc.symm⟩

theorem pyHex_no_space {n : Nat} : ∀ c ∈ pyHex n, pyIsSpace c = false := by
  intro c hc
  obtain ⟨d, hd, rfl⟩ := pyHex_mem_hexDigitChar hc
  exact pyIsSpace_hexDigitChar hd

theorem pyHex_all_hex {n : Nat} : ∀ c ∈ pyHex n, (hexDigitVal c).isSome = true := by
  intro c hc
  obtain ⟨d, hd, rfl⟩ := pyHex_mem_hexDigitChar hc
  rw [hexDigitVal_hexDigitChar hd]
  rfl

theorem pyFromHex_pyHex_isSome (n : Nat) :
    (pyFromHex (pyHex n)).isSome = ((pyHex n).length % 2 == 0) := by
  rw [pyFromHex_eq_specHexDecode _ pyHex_no_space, specHexDecode_isSome]
  unfold isValidEvenHex
  rw [List.all_eq_true.mpr pyHex_all_hex]
  rw [Bool.true_and]
  rfl

/-! ## Claim theorems -/

/-- C1: For the fixed instant `0x10` and raw command hex `"a1"`, the encoded
wire payload produced by `_encode_command` equals
`base64(bytes([0xa1, 0x10]))` — the base64 encoding of the raw command bytes
followed by the minimal big-endian hex-encoded timestamp bytes (concretely,
the string `"oRA="`). -/
theorem encode_command_fixed_instant :
    _encode_command "a1" 0x10 = some ⟨b64encode [0xa1, 0x10]⟩ ∧
      b64encode [0xa1, 0x10] = "oRA=".data := by
  decide

/-- C2 (counterexample): it is *not* true that encoding succeeds for every
instant: at epoch second `256 = 0x100`, whose minimal hexadecimal
representation `"100"` has an odd number of digits, `_encode_command` fails
(`bytearray.fromhex` raises `ValueError` on the 3-character timestamp), so
no payload is produced. -/
theorem encode_command_odd_hex_fails :
    _encode_command "a1" 256 = none ∧ (pyHex 256).length = 3 := by
  decide

/-- C2 (amended): for every positive instant the encoder renders the
whole-seconds epoch value as its minimal hexadecimal representation — no
leading zero, value-faithful, and no padding to an even number of digits —
but encoding succeeds *iff* that representation happens to have an even
number of hex digits; for instants whose minimal representation has an odd
number of digits the encoder fails instead of padding. -/
theorem encode_command_timestamp_minimal_hex (now : Nat) (hpos : 0 < now) :
    (∀ t, pyHex now = '0' :: t → False) ∧
      hexVal (pyHex now) = now ∧
      ((_encode_command "a1" now).isSome ↔ (pyHex now).length % 2 = 0) := by
  refine ⟨?_, ?_, ?_⟩
  · intro t ht
    unfold pyHex at ht
    rw [if_neg (by omega)] at ht
    cases hE : natHexDigits now now with
    | nil => rw [hE] at ht; simp at ht
    | cons a t' =>
      rw [hE] at ht
      rw [List.map_cons] at ht
      obtain ⟨ha, -⟩ := List.cons.inj ht
      have hne := natHexDigits_head_ne_zero now now hpos (Nat.le_refl now) a t' hE
      have hlt := natHexDigits_lt16 now now a (hE ▸ List.mem_cons_self a t')
      exact hexDigitChar_ne_zero_char hne hlt ha
  · unfold pyHex
    rw [if_neg (by omega)]
    exact hexVal_natHexDigits now now (Nat.le_refl now)
  · have hhead : pyFromHex "a1".data = some [0xa1] := by decide
    unfold _encode_command
    rw [hhead]
    have hts := pyFromHex_pyHex_isSome now
    constructor
    · intro hs
      cases hE : pyFromHex (pyHex now) with
      | none => rw [hE] at hs; simp at hs
      | some ts =>
        rw [hE] at hts
        have : ((pyHex now).length % 2 == 0) = true := by rw [← hts]; rfl
        simpa using this
    · intro hev
      cases hE : pyFromHex (pyHex now) with
      | none =>
        rw [hE] at hts
        simp at hts
        omega
      | some ts => simp

theorem do_congr (d : Device) {s s' : String} (now : Nat)
    (h : pyNormKey s = pyNormKey s') : d.do s now = d.do s' now := by
  unfold Device.do
  rw [h]

/-- The device of the specification's example
`command_map = {"latte": {"command": "a1"}}`. -/
def latteDevice : Device :=
  { command_map := .dict [("latte", .dict [("command", .str "a1")])] }

/-- The device of the specification's example `property_map = {"temp": "T1"}`. -/
def tempDevice : Device :=
  { property_map := .dict [("temp", .str "T1")] }

/-- C3: when the lowercased, whitespace-trimmed alias is not a key of the
command map, `Device.do` rejects the call with the explicit `ValueError`
(`UnknownCommand`) and the transport is never invoked (an `.error` result
means `send_command` was not reached); when the normalized alias maps to a
descriptor with a non-empty hex command string, `do` hands that command to
the encode-and-send path, and the encoded payload is sent whenever encoding
succeeds. -/
theorem do_rejects_unknown_alias (d : Device) (entries : List (String × JValue))
    (drink : String) (now : Nat) (hcm : d.command_map = .dict entries) :
    (entries.lookup (pyNormKey drink) = none →
        d.do drink now = .error (.unknownCommand (pyNormKey drink))) ∧
    (∀ (dentries : List (String × JValue)) (hex : String), hex ≠ "" →
        entries.lookup (pyNormKey drink) = some (.dict dentries) →
        dentries.lookup "command" = some (.str hex) →
        d.do drink now = d.send_command hex now ∧
        ∀ e, _encode_command hex now = some e → d.do drink now = .ok e) := by
  constructor
  · intro hl
    unfold Device.do
    rw [hcm]
    simp only [hl, Option.getD_none]
    rfl
  · intro dentries hex hhex hl hcmd
    have hstep : d.do drink now = d.send_command hex now := by
      unfold Device.do
      rw [hcm]
      simp only [hl, Option.getD_some, hcmd]
      have hf : JValue.falsy (.str hex) = false := by
        unfold JValue.falsy
        exact beq_eq_false_iff_ne.mpr hhex
      rw [hf]
      simp
    refine ⟨hstep, fun e he => ?_⟩
    rw [hstep]
    unfold Device.send_command
    rw [he]

/-- C4: `resolve_property` returns the mapped raw key when the alias is a key
of the property map and the alias itself when it is absent (default-to-alias
semantics); the lookup is an exact string match. -/
theorem resolve_property_default_to_alias (d : Device)
    (entries : List (String × JValue)) (a : String)
    (hpm : d.property_map = .dict entries) :
    (∀ v, entries.lookup a = some v → d.resolve_property a none = .ok v) ∧
    (entries.lookup a = none → d.resolve_property a none = .ok (.str a)) := by
  constructor
  · intro v hv
    unfold Device.resolve_property
    rw [hpm]
    simp [hv]
  · intro hnone
    unfold Device.resolve_property
    rw [hpm]
    simp [hnone]
    rfl

/-- C4 (witness): with `property_map = {"temp": "T1"}`,
`resolve_property("pressure")` returns `"pressure"` unchanged,
`resolve_property("temp")` returns `"T1"`, and the case-differing alias
`"Temp"` is *not* matched against `"temp"` (exact-match comparison). -/
theorem resolve_property_default_to_alias_witness :
    tempDevice.resolve_property "pressure" none = .ok (.str "pressure") ∧
    tempDevice.resolve_property "temp" none = .ok (.str "T1") ∧
    tempDevice.resolve_property "Temp" none = .ok (.str "Temp") :=
  ⟨(resolve_property_default_to_alias tempDevice _ "pressure" rfl).2 rfl,
   (resolve_property_default_to_alias tempDevice _ "temp" rfl).1 (.str "T1") rfl,
   (resolve_property_default_to_alias tempDevice _ "Temp" rfl).2 rfl⟩

/-- C5: command alias resolution is case-insensitive and whitespace-trimmed.
Invoking `Device.do` with any alias `s` behaves exactly as invoking it with
`lower(trim(s))`, and on the map `{"latte": {"command": "a1"}}` the aliases
`"Latte"`, `" latte "` and `"LATTE"` resolve identically. -/
theorem do_alias_case_insensitive :
    (∀ (d : Device) (s : String) (now : Nat),
        d.do s now = d.do ⟨pyLower (pyStrip s.data)⟩ now) ∧
    (∀ now : Nat,
        latteDevice.do "Latte" now = latteDevice.do " latte " now ∧
        latteDevice.do "LATTE" now = latteDevice.do " latte " now) := by
  constructor
  · intro d s now
    exact do_congr d now (pyNormKey_lower_strip s).symm
  · intro now
    exact ⟨do_congr latteDevice now (by decide), do_congr latteDevice now (by decide)⟩

/-- C3 (witness): on `{"latte": {"command": "a1"}}`, the unknown alias
`"Mocha"` is rejected with the explicit error and nothing is sent, while
`"Latte"` is encoded (at instant `0x10`) and its payload handed to the
transport. -/
theorem do_rejects_unknown_alias_witness :
    latteDevice.do "Mocha" 0x10 = .error (.unknownCommand "mocha") ∧
    latteDevice.do "Latte" 0x10 = .ok ⟨b64encode [0xa1, 0x10]⟩ := by
  constructor
  · have h := (do_rejects_unknown_alias latteDevice _ "Mocha" 0x10 rfl).1 rfl
    rw [show pyNormKey "Mocha" = "mocha" from by decide] at h
    exact h
  · exact ((do_rejects_unknown_alias latteDevice _ "Latte" 0x10 rfl).2
      [("command", .str "a1")] "a1" (by decide) rfl rfl).2 ⟨b64encode [0xa1, 0x10]⟩ (by decide)

/-- C2 (witness of the amended claim): at the instant `0x10` the timestamp
renders as the two-digit minimal representation `"10"` and encoding
succeeds. -/
theorem encode_command_timestamp_minimal_hex_witness :
    (∀ t, pyHex 16 = '0' :: t → False) ∧
      hexVal (pyHex 16) = 16 ∧
      ((_encode_command "a1" 16).isSome ↔ (pyHex 16).length % 2 = 0) :=
  encode_command_timestamp_minimal_hex 16 (by decide)

/-- C6 (counterexample): a *present but malformed* (non-dict) section value
is stored verbatim rather than being replaced by an empty map: loading the
document `{"command_map": "oops"}` produces a device whose `command_map` is
the string `"oops"`, not an empty schema. -/
theorem from_map_malformed_section_counterexample :
    (Device.from_map {} (some (.dict [("command_map", .str "oops")]))).1.command_map
        = .str "oops" ∧
      JValue.str "oops" ≠ .dict [] :=
  ⟨rfl, fun h => nomatch h⟩

/-- C6 (amended): `from_map` never raises at load time (it is a total
function here), and a *missing* path, a *non-dict* document, or a dict
document *lacking* the `command_map`/`property_map`/`monitor_profile` keys
all yield empty schemas for the corresponding sections; only a present but
non-dict section value is carried through unchanged (see the
counterexample). -/
theorem from_map_load_tolerant (tr : Transport) (doc : Option JValue) :
    (doc = none →
        (Device.from_map tr doc).1.command_map = .dict [] ∧
        (Device.from_map tr doc).1.property_map = .dict [] ∧
        (Device.from_map tr doc).1.monitor_profile = ⟨[]⟩) ∧
    (∀ j, doc = some j → j.isDict = false →
        (Device.from_map tr doc).1.command_map = .dict [] ∧
        (Device.from_map tr doc).1.property_map = .dict [] ∧
        (Device.from_map tr doc).1.monitor_profile = ⟨[]⟩) ∧
    (∀ es, doc = some (.dict es) →
        (es.lookup "command_map" = none →
            (Device.from_map tr doc).1.command_map = .dict []) ∧
        (es.lookup "property_map" = none →
            (Device.from_map tr doc).1.property_map = .dict []) ∧
        (es.lookup "monitor_profile" = none →
            (Device.from_map tr doc).1.monitor_profile = ⟨[]⟩)) := by
  refine ⟨?_, ?_, ?_⟩
  · rintro rfl
    exact ⟨rfl, rfl, rfl⟩
  · rintro j rfl hj
    simp only [Device.from_map, _load_device_map, hj, Bool.false_eq_true, if_false]
    exact ⟨rfl, rfl, rfl⟩
  · rintro es rfl
    refine ⟨fun h => ?_, fun h => ?_, fun h => ?_⟩ <;>
      simp [Device.from_map, _load_device_map, JValue.get, JValue.isDict,
        MonitorProfile.from_dict, h]

/-- C6 (witness): a missing path, the non-dict document `"x"`, and the empty
dict document each construct a device with empty maps and profile. -/
theorem from_map_load_tolerant_witness :
    (Device.from_map {} none).1.command_map = .dict [] ∧
    (Device.from_map {} (some (.str "x"))).1.property_map = .dict [] ∧
    (Device.from_map {} (some (.dict []))).1.monitor_profile = ⟨[]⟩ :=
  ⟨((from_map_load_tolerant {} none).1 rfl).1,
   ((from_map_load_tolerant {} (some (.str "x"))).2.1 (.str "x") rfl rfl).2.1,
   (((from_map_load_tolerant {} (some (.dict []))).2.2 [] rfl).2.2 rfl)⟩

/-- A transport whose readings change over time: reading 0 carries telemetry,
reading 1 does not. -/
def exReadings : Nat → MonitorSnapshot :=
  fun t => if t = 0 then { raw_b64 := some "AAAA" } else { raw_b64 := none }

/-- C7 (counterexample): the view built by `get_monitor` wraps the snapshot
*value* current at construction time, not a decode factory: the view
obtained at reading 0 still carries reading 0 after the transport has moved
on to reading 1, so repeated access does not reflect the latest reading. -/
theorem get_monitor_snapshot_counterexample :
    (Device.get_monitor_at {} exReadings 0).snapshot ≠ exReadings 1 := by
  decide

/-- C7 (amended): the monitor view is constructed from the snapshot current
at view-construction time (a cached value, not a factory); a view built at
instant `t` keeps reflecting reading `t` even when the latest reading `u`
differs, and a caller must request a *new* view via `get_monitor` to observe
reading `u`. -/
theorem get_monitor_snapshot_at_construction (d : Device)
    (readings : Nat → MonitorSnapshot) (t u : Nat)
    (h : readings u ≠ readings t) :
    (d.get_monitor_at readings t).snapshot = readings t ∧
    (d.get_monitor_at readings t).snapshot ≠ readings u ∧
    (d.get_monitor_at readings u).snapshot = readings u := by
  refine ⟨rfl, ?_, rfl⟩
  intro he
  exact h (Eq.symm he)

/-- C7 (witness of the amended claim): on the concrete reading sequence
`exReadings`, the view built at instant 0 retains reading 0 and differs from
reading 1, while a fresh view built at instant 1 shows reading 1. -/
theorem get_monitor_snapshot_at_construction_witness :
    (Device.get_monitor_at {} exReadings 0).snapshot = exReadings 0 ∧
    (Device.get_monitor_at {} exReadings 0).snapshot ≠ exReadings 1 ∧
    (Device.get_monitor_at {} exReadings 1).snapshot = exReadings 1 :=
  get_monitor_snapshot_at_construction {} exReadings 0 1 (by decide)

/-- C9: a snapshot whose raw base64 telemetry is absent (`None`) or the
empty string makes `get_monitor_frame` return `None`; no error is raised
(the function is total, and the `try/except` around `from_b64` is never
reached on this path). -/
theorem get_monitor_frame_absent_none (d : Device) (snap : MonitorSnapshot)
    (h : snap.raw_b64 = none ∨ snap.raw_b64 = some "") :
    d.get_monitor_frame snap = none := by
  unfold Device.get_monitor_frame
  rcases h with h | h <;> simp [h]

/-- C9 (witness): both an absent and an empty telemetry field yield `None`. -/
theorem get_monitor_frame_absent_none_witness :
    ({} : Device).get_monitor_frame { raw_b64 := none } = none ∧
    ({} : Device).get_monitor_frame { raw_b64 := some "" } = none :=
  ⟨get_monitor_frame_absent_none {} _ (Or.inl rfl),
   get_monitor_frame_absent_none {} _ (Or.inr rfl)⟩

/-- C10: `from_map` suppresses any exception raised by the transport's
`set_mappings` hook — the device constructed with a hook that fails (an
`Except.error` result) is identical to the one constructed with a succeeding
hook, and to the one constructed with no hook at all — and a transport
lacking the `set_mappings` attribute never has the hook invoked, while a
transport possessing it always does. -/
theorem from_map_suppresses_hook_failure
    (f : JValue → JValue → Except String Unit) (doc : Option JValue) :
    (Device.from_map ⟨some f⟩ doc).1 = (Device.from_map ⟨some fun _ _ => .ok ()⟩ doc).1 ∧
    (Device.from_map ⟨some f⟩ doc).1 = (Device.from_map ⟨none⟩ doc).1 ∧
    (Device.from_map ⟨some f⟩ doc).2 = [HookEvent.setMappingsCalled] ∧
    (Device.from_map ⟨none⟩ doc).2 = [] :=
  ⟨rfl, rfl, rfl, rfl⟩

/-- C8 (counterexample): `bytearray.fromhex` accepts ASCII whitespace between
byte pairs, so the string `"a1 b2"` — which is *not* valid hexadecimal of
even length — does not make encoding fail: the command is encoded and a
payload is handed to the transport. -/
theorem send_command_whitespace_counterexample :
    isValidEvenHex "a1 b2".data = false ∧
      pyFromHex "a1 b2".data = some [0xa1, 0xb2] ∧
      ({} : Device).send_command "a1 b2" 0x10 = .ok ⟨b64encode [0xa1, 0xb2, 0x10]⟩ := by
  refine ⟨by decide, by decide, ?_⟩
  rfl

/-- C8 (amended): for every *whitespace-free* string that is not valid
hexadecimal of even length, encoding fails with the explicit `ValueError`
before anything is sent (an `.error` result of `send_command` means the
transport was never invoked); for every valid even-length hex string the raw
command bytes are exactly the standard pairwise hex decoding.
(`bytearray.fromhex` additionally tolerates ASCII whitespace between byte
pairs — see the counterexample.) -/
theorem send_command_hex_validation (s : String) (now : Nat)
    (hns : ∀ c ∈ s.data, pyIsSpace c = false) :
    (isValidEvenHex s.data = false →
        ∀ d : Device, d.send_command s now = .error .invalidHex) ∧
    (isValidEvenHex s.data = true →
        ∃ bs, pyFromHex s.data = some bs ∧ specHexDecode s.data = some bs) := by
  have heq := pyFromHex_eq_specHexDecode s.data hns
  constructor
  · intro hbad d
    have hs : (specHexDecode s.data).isSome = false := by
      rw [specHexDecode_isSome, hbad]
    have hnone : specHexDecode s.data = none := by
      cases hE : specHexDecode s.data with
      | none => rfl
      | some bs => rw [hE] at hs; simp at hs
    unfold Device.send_command _encode_command
    rw [heq, hnone]
  · intro hgood
    have hs : (specHexDecode s.data).isSome = true := by
      rw [specHexDecode_isSome, hgood]
    obtain ⟨bs, hbs⟩ := Option.isSome_iff_exists.mp hs
    exact ⟨bs, heq ▸ hbs, hbs⟩

/-- C8 (witness of the amended claim): the whitespace-free non-hex string
`"zz"` is rejected before anything is sent, while the valid even-length hex
string `"a1"` decodes to the byte `0xa1`. -/
theorem send_command_hex_validation_witness :
    ({} : Device).send_command "zz" 0x10 = .error .invalidHex ∧
      (∃ bs, pyFromHex "a1".data = some bs ∧ specHexDecode "a1".data = some bs) :=
  ⟨(send_command_hex_validation "zz" 0x10 (by decide)).1 (by decide) {},
   (send_command_hex_validation "a1" 0x10 (by decide)).2 (by decide)⟩
